import Mathlib

/-!
# Verification of the video cataloging and tag-retrieval subsystem

Shallow embedding of the server's core logic: the Video/Tag data model and
SQL queries (`Video.js`, `Tag.js`), the route handlers (`server.js`), and the
thumbnail/preview pipeline (`thumbnailGenerator.js`).  SQL queries are embedded
as list-processing functions over an explicit database state; the SQLite
`LIKE` operator is embedded as a wildcard matcher; filesystem state is an
association list from file names to content identifiers.  JavaScript number
arithmetic in the preview-window computation is embedded over `ℚ`.
-/

namespace VideoServer

/-! ## String helpers (ASCII case folding, SQLite LIKE) -/

/-- ASCII lowercasing, as both `String.prototype.toLowerCase` (on ASCII data)
and SQLite's `LOWER` behave. -/
def lowerStr (s : String) : String := ⟨s.data.map Char.toLower⟩

/-- SQLite `LIKE` pattern matching over char lists, fuelled so that the
recursion is structural (every recursive call shrinks `pattern.length +
text.length`, so fuel `pattern.length + text.length + 1` never runs out):
`%` matches any sequence, `_` any single char, everything else literally. -/
def likeMatchF : Nat → List Char → List Char → Bool
  | 0, _, _ => false
  | _ + 1, [], [] => true
  | _ + 1, [], _ :: _ => false
  | n + 1, '%' :: ps, [] => likeMatchF n ps []
  | n + 1, '%' :: ps, c :: ts => likeMatchF n ps (c :: ts) || likeMatchF n ('%' :: ps) ts
  | _ + 1, '_' :: _, [] => false
  | n + 1, '_' :: ps, _ :: ts => likeMatchF n ps ts
  | _ + 1, _ :: _, [] => false
  | n + 1, p :: ps, c :: ts => p == c && likeMatchF n ps ts

/-- SQLite `LIKE`: does `s` match pattern `pat`.  Both sides are compared as
given (callers pass pre-lowercased text and patterns). -/
def likeMatch (pat s : List Char) : Bool :=
  likeMatchF (pat.length + s.length + 1) pat s

/-- `strLike pat s` : does string `s` match LIKE pattern `pat`. -/
def strLike (pat s : String) : Bool := likeMatch pat.data s.data

/-! ## Data model (tables `videos`, `tags`, `video_tags` from the schema) -/

/-- One row of the `videos` table (the columns the core logic reads).
`createdAt` is an abstract timestamp: larger means newer. -/
structure Video where
  id : Nat
  filename : String
  title : String
  duration : Nat
  height : Nat
  createdAt : Nat
deriving DecidableEq, Repr

/-- One row of the `tags` table (the columns the core logic reads). -/
structure TagRec where
  id : Nat
  name : String
  color : String
deriving DecidableEq, Repr

/-- One row of the `video_tags` association table. -/
structure VideoTag where
  videoId : Nat
  tagId : Nat
deriving DecidableEq, Repr

/-- Database state: the three tables the retrieval engine joins. -/
structure DB where
  videos : List Video
  tags : List TagRec
  videoTags : List VideoTag
deriving Repr

/-- The tag rows joined to a video (`LEFT JOIN video_tags ... LEFT JOIN tags`),
in association-table order. -/
def tagRowsFor (db : DB) (v : Video) : List TagRec :=
  (db.videoTags.filter (fun vt => vt.videoId == v.id)).filterMap
    (fun vt => db.tags.find? (fun t => t.id == vt.tagId))

/-- The names of the tags associated with a video. -/
def videoTagNames (db : DB) (v : Video) : List String :=
  (tagRowsFor db v).map (·.name)

/-! ## C5 : `createTag` (Tag.js) and the `tags.name` UNIQUE constraint

`createTag` runs `INSERT INTO tags (name, color, ...) VALUES (?, ?, ...)` and
maps `SQLITE_CONSTRAINT_UNIQUE` to a duplicate-name error.  The schema declares
`name TEXT NOT NULL UNIQUE` with the default BINARY collation, so the
constraint fires exactly on a byte-identical existing name. -/

/-- AUTOINCREMENT-style fresh id: one more than the largest id in the table. -/
def nextTagId (tags : List TagRec) : Nat :=
  (tags.map (·.id)).foldr max 0 + 1

/-- `Tag.createTag(name, color, ...)`: insert, or reject on the UNIQUE
constraint.  On success resolves the new row id (`this.lastID`) together with
the updated table; on a duplicate rejects with the duplicate-name error. -/
def createTag (tags : List TagRec) (name color : String) :
    Except String (Nat × List TagRec) :=
  if tags.any (fun t => t.name == name) then
    .error ("Tag " ++ name ++ " already exists")
  else
    .ok (nextTagId tags, tags ++ [⟨nextTagId tags, name, color⟩])

/-! ## C6 : preview clip window (`generatePreview`, thumbnailGenerator.js)

The start/length computation on the probed duration, with the final
validation clamp, embedded over `ℚ` (JS numeric literals `0.1`, `0.2`, `0.3`
taken exactly). -/

/-- The `(startTime, duration)` pair computed by the three duration branches of
`generatePreview`, before the final validation clamp. -/
def previewRaw (d : ℚ) : ℚ × ℚ :=
  if d ≤ 30 then
    (min 2 (d * (1/10)), min 10 (d - min 2 (d * (1/10)) - 1))
  else if d ≤ 60 then
    (15, min 15 (d - 15 - 5))
  else
    (min (max 30 (d * (2/10))) (d - min 20 (max 10 (d * (3/10))) - 5),
     min 20 (max 10 (d * (3/10))))

/-- The start time after the final validation (`if (startTime < 0) startTime = 0`). -/
def previewStart (d : ℚ) : ℚ :=
  if (previewRaw d).1 < 0 then 0 else (previewRaw d).1

/-- The `(startTime, duration)` pair `generatePreview` ends up using: the branch
computation followed by the final validation clamp
(`if (duration <= 0 || startTime + duration > videoDuration) ...`). -/
def previewWindow (d : ℚ) : ℚ × ℚ :=
  (previewStart d,
   if (previewRaw d).2 ≤ 0 ∨ previewStart d + (previewRaw d).2 > d then
     max 1 (d - previewStart d - 1)
   else (previewRaw d).2)

/-! ## C1 : `enhancedSearchByTitle` (Video.js)

The SQL `CASE` computes `match_priority`: 1 for `LOWER(title)=q` or
`LOWER(filename)=q`, 2 for `LIKE 'q%'`, 3 for `LIKE '%q%'`, 4 for
`LIKE '% q%'`, else 5, with the first satisfied `WHEN` winning; the `WHERE`
clause keeps rows matching any of the contains / starts-with / word-start
patterns; rows are ordered by `match_priority ASC, created_at DESC`. -/

/-- The `match_priority` the query's `CASE` expression assigns to a video for
query `q` (the `WHEN` branches are tested top to bottom). -/
def matchPriority (q : String) (v : Video) : Nat :=
  if lowerStr v.title = lowerStr q ∨ lowerStr v.filename = lowerStr q then 1
  else if strLike (lowerStr q ++ "%") (lowerStr v.title) ∨
           strLike (lowerStr q ++ "%") (lowerStr v.filename) then 2
  else if strLike ("%" ++ lowerStr q ++ "%") (lowerStr v.title) ∨
           strLike ("%" ++ lowerStr q ++ "%") (lowerStr v.filename) then 3
  else if strLike ("% " ++ lowerStr q ++ "%") (lowerStr v.title) ∨
           strLike ("% " ++ lowerStr q ++ "%") (lowerStr v.filename) then 4
  else 5

/-- The query's `WHERE` clause: the row matches the contains, starts-with or
word-start pattern on the lowered title or filename. -/
def whereMatch (q : String) (v : Video) : Bool :=
  strLike ("%" ++ lowerStr q ++ "%") (lowerStr v.title) ||
  strLike ("%" ++ lowerStr q ++ "%") (lowerStr v.filename) ||
  strLike (lowerStr q ++ "%") (lowerStr v.title) ||
  strLike (lowerStr q ++ "%") (lowerStr v.filename) ||
  strLike ("% " ++ lowerStr q ++ "%") (lowerStr v.title) ||
  strLike ("% " ++ lowerStr q ++ "%") (lowerStr v.filename)

/-- The result ordering `ORDER BY match_priority ASC, created_at DESC` as a
total preorder on videos. -/
def searchRel (q : String) (a b : Video) : Prop :=
  matchPriority q a < matchPriority q b ∨
    (matchPriority q a = matchPriority q b ∧ b.createdAt ≤ a.createdAt)

instance (q : String) : DecidableRel (searchRel q) := fun a b =>
  decidable_of_iff
    (matchPriority q a < matchPriority q b ∨
      (matchPriority q a = matchPriority q b ∧ b.createdAt ≤ a.createdAt))
    Iff.rfl

instance (q : String) : IsTotal Video (searchRel q) :=
  ⟨fun a b => by unfold searchRel; omega⟩

instance (q : String) : IsTrans Video (searchRel q) :=
  ⟨fun a b c hab hbc => by unfold searchRel at hab hbc ⊢; omega⟩

/-- `Video.enhancedSearchByTitle(query)`: the rows passing the `WHERE` clause,
ordered by `match_priority ASC, created_at DESC`. -/
def enhancedSearchByTitle (db : DB) (q : String) : List Video :=
  List.insertionSort (searchRel q) (db.videos.filter (whereMatch q))

/-- The claim's sample catalog: three videos titled exactly "Matrix",
"The Matrix Reloaded" and "xMatrixx", with given creation times. -/
def vidMatrix (t : Nat) : Video := ⟨1, "Matrix.mp4", "Matrix", 100, 1080, t⟩

/-- Second sample video, titled "The Matrix Reloaded". -/
def vidReloaded (t : Nat) : Video := ⟨2, "Reloaded.mp4", "The Matrix Reloaded", 100, 1080, t⟩

/-- Third sample video, titled "xMatrixx". -/
def vidXMatrixx (t : Nat) : Video := ⟨3, "other.mp4", "xMatrixx", 100, 1080, t⟩

/-- Catalog holding exactly the three sample videos. -/
def matrixDB (t1 t2 t3 : Nat) : DB :=
  ⟨[vidMatrix t1, vidReloaded t2, vidXMatrixx t3], [], []⟩

/-! ## C3 : `searchByTags` (Video.js)

The query keeps video ids for which
`COUNT(DISTINCT t2.name) = tagNames.length` over the video's tag rows whose
name is `IN` the supplied list, and orders by `created_at DESC`; an empty or
missing list short-circuits to the empty result. -/

/-- The ordering `ORDER BY created_at DESC` as a relation on videos. -/
def createdDesc (a b : Video) : Prop := b.createdAt ≤ a.createdAt

instance : DecidableRel createdDesc := fun a b =>
  decidable_of_iff (b.createdAt ≤ a.createdAt) Iff.rfl

instance : IsTotal Video createdDesc := ⟨fun a b => le_total b.createdAt a.createdAt⟩

instance : IsTrans Video createdDesc := ⟨fun _ _ _ h1 h2 => le_trans h2 h1⟩

/-- `Video.searchByTags(tagNames)`: empty input short-circuits to `[]`;
otherwise keep the videos whose count of distinct tag names lying in
`tagNames` equals `tagNames.length` (the JS array length, duplicates
included), ordered by creation time descending. -/
def searchByTags (db : DB) (tagNames : List String) : List Video :=
  if tagNames.isEmpty then []
  else
    List.insertionSort createdDesc
      (db.videos.filter (fun v =>
        (((videoTagNames db v).filter (fun n => tagNames.contains n)).dedup).length =
          tagNames.length))

/-- Sample video for the tag-search claims. -/
def vidA : Video := ⟨1, "a.mp4", "A video", 10, 1080, 1⟩

/-- Catalog with one video carrying the single tag "A". -/
def tagDB1 : DB := ⟨[vidA], [⟨1, "A", "#fff"⟩], [⟨1, 1⟩]⟩

/-! ## C9 : tag aggregation into parallel lists (Video.js)

`getVideoById` / `getAllVideos` select `GROUP_CONCAT(t.name)`,
`GROUP_CONCAT(t.color)` and `GROUP_CONCAT(t.id)` (comma-joined, same join
order for the three aggregates, `NULL` when the video has no tags) and JS
post-processes each with `row.x ? row.x.split(',') : []`, mapping the id
pieces through `parseInt`. -/

/-- `String.prototype.split(',')` on char lists: split at every comma. -/
def splitComma : List Char → List (List Char)
  | [] => [[]]
  | c :: rest =>
    if c = ',' then [] :: splitComma rest
    else
      match splitComma rest with
      | [] => [[c]]
      | h :: t => (c :: h) :: t

/-- Comma-join, as `GROUP_CONCAT` produces (empty input stands for SQL `NULL`,
which JS then treats like the empty string: both are falsy). -/
def joinComma : List (List Char) → List Char
  | [] => []
  | [x] => x
  | x :: y :: t => x ++ ',' :: joinComma (y :: t)

/-- Decimal digit list of a natural, most significant first, fuelled so the
recursion is structural (`n / 10` strictly decreases while fuel `n + 1` drops
by one, so fuel never runs out).  This is how SQLite renders an INTEGER
column inside `GROUP_CONCAT`. -/
def natDigits : Nat → Nat → List Char
  | 0, _ => []
  | f + 1, n =>
    if n < 10 then [Nat.digitChar n]
    else natDigits f (n / 10) ++ [Nat.digitChar (n % 10)]

/-- Decimal rendering of a natural number (SQLite INTEGER-to-TEXT). -/
def renderNat (n : Nat) : List Char := natDigits (n + 1) n

/-- JS `parseInt` on a decimal-digit string: consume leading digits,
accumulating base-10. -/
def parseDigits : List Char → Nat → Nat
  | [], acc => acc
  | c :: rest, acc =>
    if c.isDigit then parseDigits rest (acc * 10 + (c.toNat - 48)) else acc

/-- `GROUP_CONCAT` of a list of text values. -/
def groupConcat (xs : List String) : String := ⟨joinComma (xs.map String.data)⟩

/-- The JS post-processing `row.x ? row.x.split(',') : []`: the empty
concatenation (no rows, or SQL NULL) is falsy and yields `[]`. -/
def jsSplit (s : String) : List String :=
  if s.data.isEmpty then [] else (splitComma s.data).map (fun l => ⟨l⟩)

/-- `parseInt` lifted to strings. -/
def jsParseInt (s : String) : Nat := parseDigits s.data 0

/-- A tag id as the text `GROUP_CONCAT` sees it. -/
def renderId (n : Nat) : String := ⟨renderNat n⟩

/-- The video object the model returns: the raw row plus the three
post-processed lists `tags`, `tag_colors`, `tag_ids`. -/
structure VideoRow where
  video : Video
  tags : List String
  tagColors : List String
  tagIds : List Nat
deriving DecidableEq, Repr

/-- Row assembly shared by `getVideoById` and `getAllVideos`: aggregate the
video's tag rows into the three comma-joined strings and split them back. -/
def rowOf (db : DB) (v : Video) : VideoRow :=
  { video := v
    tags := jsSplit (groupConcat ((tagRowsFor db v).map (·.name)))
    tagColors := jsSplit (groupConcat ((tagRowsFor db v).map (·.color)))
    tagIds := (jsSplit (groupConcat ((tagRowsFor db v).map (fun t => renderId t.id)))).map
      jsParseInt }

/-- `Video.getVideoById(id)`: the aggregated row, or `none` when absent. -/
def getVideoById (db : DB) (i : Nat) : Option VideoRow :=
  (db.videos.find? (fun v => v.id == i)).map (rowOf db)

/-- `Video.getAllVideos()`: every video aggregated, newest first. -/
def getAllVideos (db : DB) : List VideoRow :=
  (List.insertionSort createdDesc db.videos).map (rowOf db)

/-- Sample video for the aggregation counterexample. -/
def vidC : Video := ⟨1, "c.mp4", "C video", 10, 1080, 1⟩

/-- Catalog whose single tag has a comma inside its name. -/
def commaDB : DB := ⟨[vidC], [⟨7, "a,b", "#ff0000"⟩], [⟨1, 7⟩]⟩

/-! ## C7 / C10 : `generatePreview` / `generateThumbnail` control flow
(thumbnailGenerator.js)

`generatePreview` probes the duration first and bails out with `null` at
duration 0; then reuses an existing preview file only when its size exceeds
1KB (removing it otherwise); then, with the tool, runs the clip extraction and
rejects a fresh file under 1KB (removing it and resolving `null`).
`getVideoDuration` resolves 0 when the tool is absent or `ffprobe` errors.
`generateThumbnail` always resolves an artifact path, falling back to a
placeholder image when the tool is absent or the extraction fails. -/

/-- Outcome of one ffmpeg clip-extraction run: the `error` event, the `end`
event with no file on disk, or the `end` event with a file of the given
size.  (On `error` the call resolves `null`; any partial output is not
modelled — only the resolved value and the checked file matter.) -/
inductive GenOutcome
  | err
  | endNoFile
  | endFile (size : Nat)
deriving DecidableEq, Repr

/-- Environment of one `generatePreview` call: tool availability, probe
behaviour, any pre-existing preview file's size, and what an extraction run
would produce. -/
structure PreviewEnv where
  ffmpeg : Bool
  probeErr : Bool
  probed : Nat
  existing : Option Nat
  gen : GenOutcome
deriving DecidableEq, Repr

/-- `getVideoDuration`: 0 without the tool, 0 on an ffprobe error, else the
probed (floored) duration. -/
def getVideoDuration (e : PreviewEnv) : Nat :=
  if ¬ e.ffmpeg then 0 else if e.probeErr then 0 else e.probed

/-- Observable outcome of `generatePreview`: the resolved value (`some size`
stands for the path of a file of that size, `none` for `null`), the preview
file left on disk, and whether an extraction run was started. -/
structure PreviewResult where
  result : Option Nat
  fileAfter : Option Nat
  attempted : Bool
deriving DecidableEq, Repr

/-- The generation phase of `generatePreview` (the promise body): `null`
without the tool; on `end` with a file under 1KB the file is removed and
`null` resolved; otherwise the file's path. -/
def runPreviewGen (e : PreviewEnv) : PreviewResult :=
  if ¬ e.ffmpeg then ⟨none, none, false⟩
  else
    match e.gen with
    | .err => ⟨none, none, true⟩
    | .endNoFile => ⟨none, none, true⟩
    | .endFile sz => if sz < 1024 then ⟨none, none, true⟩ else ⟨some sz, some sz, true⟩

/-- `generatePreview`: `null` at duration 0 (before looking at the
filesystem); reuse of an existing file only when its size exceeds 1KB,
removal and regeneration otherwise. -/
def generatePreview (e : PreviewEnv) : PreviewResult :=
  if getVideoDuration e = 0 then ⟨none, e.existing, false⟩
  else
    match e.existing with
    | some sz => if 1024 < sz then ⟨some sz, some sz, false⟩ else runPreviewGen e
    | none => runPreviewGen e

/-- Outcome of the single-frame extraction inside `generateThumbnail`. -/
inductive ThumbExtract
  | ok
  | fail
deriving DecidableEq, Repr

/-- Environment of one `generateThumbnail` call. -/
structure ThumbEnv where
  ffmpeg : Bool
  existing : Bool
  extract : ThumbExtract
deriving DecidableEq, Repr

/-- The artifact `generateThumbnail` resolves: the pre-existing committed
thumbnail, a freshly extracted frame, or the SVG placeholder. -/
inductive Artifact
  | existingThumb
  | extracted
  | placeholder
deriving DecidableEq, Repr

/-- `generateThumbnail`: reuse an existing file, else extract a frame, else
write a placeholder; every branch resolves an artifact. -/
def generateThumbnail (te : ThumbEnv) : Option Artifact :=
  if te.existing then some .existingThumb
  else if ¬ te.ffmpeg then some .placeholder
  else
    match te.extract with
    | .ok => some .extracted
    | .fail => some .placeholder

/-! ## C8 : `generateSelectionThumbnails` (thumbnailGenerator.js)

The call aborts with `[]` when the tool is unavailable, the video file is
missing, or the thumbnail directory cannot be created; at duration 0 (or NaN)
it falls back to fixed timestamps 1s/3s/5s capped at `min count 3`, keeping
per-candidate successes, skipping per-candidate failures, and breaking out of
the whole fallback when the very first candidate's extraction throws;
otherwise it extracts at evenly spaced timestamps, skipping failures. -/

/-- Per-candidate extraction outcome: the extraction promise rejects
(`thrown`), resolves but the file is absent afterwards (`noFile`), or
resolves with the file present (`ok`). -/
inductive ExtractOutcome
  | ok
  | thrown
  | noFile
deriving DecidableEq, Repr

/-- Environment of one `generateSelectionThumbnails` call: tool availability,
video-file existence, directory creation, probe behaviour, which candidate
files pre-exist (by 1-based index), and each timestamp's extraction outcome. -/
structure SelEnv where
  ffmpeg : Bool
  videoExists : Bool
  dirOk : Bool
  probeErr : Bool
  probed : Nat
  preexisting : Nat → Bool
  extract : Nat → ExtractOutcome

/-- The fixed fallback timestamps `['00:00:01','00:00:03','00:00:05']` in
seconds, by 0-based loop index. -/
def fallbackTime (i : Nat) : Nat := 2 * i + 1

/-- The `generateFallbackThumbnails` loop over the remaining 0-based indices:
a pre-existing candidate file is reused, a successful extraction is kept, a
resolved-but-missing file is skipped, and a throw aborts everything when it
hits the first candidate but is skipped otherwise. -/
def fallbackLoop (env : SelEnv) : List Nat → List Nat
  | [] => []
  | i :: rest =>
    if env.preexisting (i + 1) then (i + 1) :: fallbackLoop env rest
    else
      match env.extract (fallbackTime i) with
      | .ok => (i + 1) :: fallbackLoop env rest
      | .noFile => fallbackLoop env rest
      | .thrown => if i = 0 then [] else fallbackLoop env rest

/-- `generateFallbackThumbnails(path, filename, count)`: the fixed-timestamp
loop runs `min count 3` times (3 = number of fixed timestamps), returning the
1-based indices of the candidates produced. -/
def generateFallbackThumbnails (env : SelEnv) (count : Nat) : List Nat :=
  fallbackLoop env (List.range (min count 3))

/-- The evenly-spaced main loop (1-based indices, timestamp `interval * i`):
any per-candidate failure is logged and skipped, never fatal. -/
def mainLoop (env : SelEnv) (interval : Nat) : List Nat → List Nat
  | [] => []
  | i :: rest =>
    if env.preexisting i then i :: mainLoop env interval rest
    else
      match env.extract (interval * i) with
      | .ok => i :: mainLoop env interval rest
      | .noFile => mainLoop env interval rest
      | .thrown => mainLoop env interval rest

/-- `generateSelectionThumbnails(path, filename, count)`: early empty returns,
then the duration-0 fallback (capped at `min count 3`), the short-video
fallback when `floor(duration / (count+1)) = 0` (capped at
`min count (max 1 duration)`), else the evenly spaced main loop over
`min count (duration / interval)` candidates. -/
def generateSelectionThumbnails (env : SelEnv) (count : Nat) : List Nat :=
  if ¬ env.ffmpeg then []
  else if ¬ env.videoExists then []
  else if ¬ env.dirOk then []
  else
    let duration := if env.probeErr then 0 else env.probed
    if duration = 0 then generateFallbackThumbnails env (min count 3)
    else
      let interval := duration / (count + 1)
      if interval = 0 then
        generateFallbackThumbnails env (min count (max 1 duration))
      else
        mainLoop env interval (List.range' 1 (min count (duration / interval)))

/-- A fallback candidate (0-based index `i`) ends up in the result when its
file pre-exists or its fixed-timestamp extraction succeeds. -/
def selCandidateKept (env : SelEnv) (i : Nat) : Bool :=
  env.preexisting (i + 1) || (env.extract (fallbackTime i) == .ok)

/-- Environment with the tool available and every extraction succeeding, but
the video file missing and the probe erroring. -/
def selEnvMissing : SelEnv :=
  ⟨true, false, true, true, 0, fun _ => false, fun _ => .ok⟩

/-- Environment with unknown duration where only the timestamp-3s extraction
(the second fixed candidate) throws. -/
def selEnvFallback : SelEnv :=
  ⟨true, true, true, true, 0, fun _ => false, fun t => if t = 3 then .thrown else .ok⟩

/-! ## C4 : committing a selection thumbnail (server.js)

`POST /api/videos/:id/set-thumbnail` looks up the video, requires the chosen
file to exist in the thumbnail directory, stores that file's own path as the
video's `thumbnail_path`, and then runs `cleanupUnusedThumbnails`, which
deletes every `selection_*thumb_*.jpg` whose normalized base name matches the
video's — including the chosen candidate.  No copy to the deterministic
`thumb_<basename>.jpg` is made on this path (unlike the upload path). -/

/-- JS `String.prototype.includes` on char lists. -/
def listContains (hay needle : List Char) : Bool :=
  match hay with
  | [] => needle.isEmpty
  | _ :: t => needle.isPrefixOf hay || listContains t needle

/-- JS `String.prototype.replace` with a plain-string pattern: remove the
first occurrence (the code always replaces with the empty string). -/
def removeFirst (pat : List Char) : List Char → List Char
  | [] => []
  | c :: rest =>
    if pat.isPrefixOf (c :: rest) then (c :: rest).drop pat.length
    else c :: removeFirst pat rest

/-- `replace(/^\d+_thumb_/, '')`: strip a leading digit run followed by
`_thumb_`, if present. -/
def stripDigitsThumb (l : List Char) : List Char :=
  let ds := l.takeWhile Char.isDigit
  if ds.isEmpty then l
  else if ("_thumb_".data).isPrefixOf (l.drop ds.length) then
    (l.drop ds.length).drop ("_thumb_".data).length
  else l

/-- `replace(/_\d+$/, '')`: strip a trailing `_<digits>` de-duplication
suffix, if present. -/
def stripTrailNumSuffix (l : List Char) : List Char :=
  let r := l.reverse
  let ds := r.takeWhile Char.isDigit
  if ds.isEmpty then l
  else if (r.drop ds.length).head? = some '_' then (r.drop (ds.length + 1)).reverse
  else l

/-- `path.parse(filename).name`: the filename without its last extension
(a lone leading dot is not an extension). -/
def baseNameOf (l : List Char) : List Char :=
  let r := l.reverse
  let ext := r.takeWhile (fun c => ¬ (c = '.'))
  if ext.length < l.length ∧ ext.length + 1 ≠ l.length then
    (r.drop (ext.length + 1)).reverse
  else l

/-- The `selection_* ... thumb_* ... .jpg` pre-filter of
`cleanupUnusedThumbnails`. -/
def isSelectionJpg (file : List Char) : Bool :=
  ("selection_".data).isPrefixOf file && listContains file ("thumb_".data) &&
    (".jpg".data).isSuffixOf file

/-- The candidate file's normalized base name:
`file.replace('selection_','').replace(/^\d+_thumb_/,'').replace('.jpg','')`. -/
def fileBaseOf (file : List Char) : List Char :=
  removeFirst (".jpg".data) (stripDigitsThumb (removeFirst ("selection_".data) file))

/-- The heuristic base-name match of `cleanupUnusedThumbnails`: containment
in either direction, or the raw file containing `thumb_<baseName>` /
`thumb_<target>`. -/
def cleanupMatches (videoFilename : String) (file : List Char) : Bool :=
  let baseName := baseNameOf videoFilename.data
  let target := stripTrailNumSuffix baseName
  let fb := fileBaseOf file
  listContains fb target || listContains target fb ||
    listContains file (("thumb_".data) ++ baseName) ||
    listContains file (("thumb_".data) ++ target)

/-- `cleanupUnusedThumbnails(filename, selected)`: delete every matching
selection candidate (the chosen one included) from the thumbnail directory,
modelled as an association list from file name to content. -/
def cleanupUnusedThumbnails (fs : List (String × Nat)) (videoFilename : String) :
    List (String × Nat) :=
  fs.filter (fun f => !(isSelectionJpg f.1.data && cleanupMatches videoFilename f.1.data))

/-- `getThumbnailFilename`: the deterministic committed name
`thumb_<basename>.jpg`. -/
def getThumbnailFilename (filename : String) : String :=
  ⟨("thumb_".data) ++ baseNameOf filename.data ++ (".jpg".data)⟩

/-- Thumbnail-directory contents plus the video's stored thumbnail path. -/
structure SysState where
  fs : List (String × Nat)
  thumbnailPath : Option String
deriving DecidableEq, Repr

/-- The `set-thumbnail` endpoint: 404 (state unchanged) when the chosen file
is absent; otherwise store the chosen file's path as `thumbnail_path` and run
the cleanup. -/
def setThumbnail (st : SysState) (videoFilename thumbnailFilename : String) : SysState :=
  if (st.fs.lookup thumbnailFilename).isNone then st
  else
    { fs := cleanupUnusedThumbnails st.fs videoFilename
      thumbnailPath := some thumbnailFilename }

/-- Six selection candidates for "clip.mp4", with distinct contents. -/
def clipFS : List (String × Nat) :=
  [("selection_1_thumb_clip.jpg", 101), ("selection_2_thumb_clip.jpg", 102),
   ("selection_3_thumb_clip.jpg", 103), ("selection_4_thumb_clip.jpg", 104),
   ("selection_5_thumb_clip.jpg", 105), ("selection_6_thumb_clip.jpg", 106)]

/-! ## C2 : composite filter (GET /api/videos/filter)

The route parses the query parameters and delegates to
`Video.getFilteredVideos`, whose body is not among the provided model
sources; it is modelled from the spec below. -/

/-- The parsed query of the filter route: absent parameters arrive as the
empty list (`tags`, `resolution`) or `none`. -/
structure FilterOpts where
  tags : List String
  resolution : List String
  durationMin : Option Nat
  durationMax : Option Nat
  dateFrom : Option Nat
  dateTo : Option Nat
  page : Nat
  limit : Nat
deriving Repr

/-- Resolution-class bucketing by pixel height (spec §4.2, matching the
client's `getResolutionCategory`). -/
def resolutionClass (height : Nat) : String :=
  if height ≤ 480 then "sd"
  else if height ≤ 720 then "hd"
  else if height ≤ 1080 then "fullhd"
  else if height ≤ 1440 then "2k"
  else if height ≤ 2160 then "4k"
  else "other"

/-- Tag predicate of the composite filter: an empty tag set does not narrow;
otherwise AND semantics over the video's tag names. -/
def tagPred (db : DB) (o : FilterOpts) (v : Video) : Bool :=
  o.tags.isEmpty || o.tags.all (fun n => (videoTagNames db v).contains n)

/-- Resolution predicate: an empty class set matches everything. -/
def resPred (o : FilterOpts) (v : Video) : Bool :=
  o.resolution.isEmpty || o.resolution.contains (resolutionClass v.height)

/-- Duration-range predicate: absent bounds do not narrow. -/
def durPred (o : FilterOpts) (v : Video) : Bool :=
  (match o.durationMin with | none => true | some m => decide (m ≤ v.duration)) &&
  (match o.durationMax with | none => true | some m => decide (v.duration ≤ m))

/-- Date-range predicate on the creation timestamp: absent bounds do not
narrow. -/
def datePred (o : FilterOpts) (v : Video) : Bool :=
  (match o.dateFrom with | none => true | some t => decide (t ≤ v.createdAt)) &&
  (match o.dateTo with | none => true | some t => decide (v.createdAt ≤ t))

/-- All active predicates combine with logical AND over the base video set. -/
def matchesFilter (db : DB) (o : FilterOpts) (v : Video) : Bool :=
  tagPred db o v && resPred o v && durPred o v && datePred o v

/-- Pagination: 1-based page of `limit` entries. -/
def paginate (page limit : Nat) (l : List Video) : List Video :=
  (l.drop ((page - 1) * limit)).take limit

/-- Modelled from the spec: `Video.getFilteredVideos` is called by the
`GET /api/videos/filter` route but its body is not among the provided model
sources.  Per spec §4.2 it combines the independently optional predicates
with logical AND over the base video set (absence of a predicate must not
narrow the result set), sorts by the default creation time descending, and
paginates. -/
def getFilteredVideos (db : DB) (o : FilterOpts) : List Video :=
  paginate o.page o.limit
    (List.insertionSort createdDesc (db.videos.filter (matchesFilter db o)))

/-- Filter request with every predicate absent. -/
def emptyFilter : FilterOpts := ⟨[], [], none, none, none, none, 1, 100⟩

/-! ## C1 theorems -/

/-- C1 counterexample: with creation times 1 / 2 / 3 for "Matrix" /
"The Matrix Reloaded" / "xMatrixx", searching "Matrix" returns
"Matrix", "xMatrixx", "The Matrix Reloaded" — NOT the claimed order.  The
`CASE` tests the substring tier (3) before the word-start tier (4) and every
word-start match is also a substring match, so "The Matrix Reloaded" lands in
tier 3 alongside "xMatrixx" and recency decides between them. -/
theorem enhancedSearch_matrix_recency_refuted :
    (enhancedSearchByTitle (matrixDB 1 2 3) "Matrix").map (fun v => v.title) =
        ["Matrix", "xMatrixx", "The Matrix Reloaded"]
    ∧ (enhancedSearchByTitle (matrixDB 1 2 3) "Matrix").map (fun v => v.title) ≠
        ["Matrix", "The Matrix Reloaded", "xMatrixx"] :=
  ⟨by decide, by decide⟩

/-- C1 (amended): `enhancedSearchByTitle` returns exactly the rows passing the
`WHERE` clause, ordered by assigned tier ascending then creation time
descending, so a tier-1 result always precedes a tier-3 result regardless of
recency; but the word-start tier 4 is unreachable (tier 3's `'%q%'` subsumes
`'% q%'`), so in the Matrix example "The Matrix Reloaded" and "xMatrixx" are
both tier 3: "Matrix" is always first while the other two are ordered by
creation time descending, for every assignment of creation times. -/
theorem enhancedSearch_ranking (db : DB) (q : String) (t1 t2 t3 : Nat) :
    List.Perm (enhancedSearchByTitle db q) (db.videos.filter (whereMatch q))
    ∧ List.Sorted (searchRel q) (enhancedSearchByTitle db q)
    ∧ (∀ i j : Fin (enhancedSearchByTitle db q).length, i < j →
        matchPriority q ((enhancedSearchByTitle db q).get i) ≤
          matchPriority q ((enhancedSearchByTitle db q).get j))
    ∧ enhancedSearchByTitle (matrixDB t1 t2 t3) "Matrix" =
        vidMatrix t1 :: (if t3 ≤ t2 then [vidReloaded t2, vidXMatrixx t3]
                         else [vidXMatrixx t3, vidReloaded t2]) := by
  refine ⟨List.perm_insertionSort _ _, List.sorted_insertionSort _ _, ?_, ?_⟩
  · intro i j hij
    have h := (List.sorted_insertionSort (searchRel q)
        (db.videos.filter (whereMatch q))).rel_get_of_lt hij
    rcases h with h | ⟨h, _⟩
    · exact le_of_lt h
    · exact le_of_eq h
  · have pM : matchPriority "Matrix" (vidMatrix t1) = 1 := rfl
    have pR : matchPriority "Matrix" (vidReloaded t2) = 3 := rfl
    have pX : matchPriority "Matrix" (vidXMatrixx t3) = 3 := rfl
    have hfil : (matrixDB t1 t2 t3).videos.filter (whereMatch "Matrix") =
        [vidMatrix t1, vidReloaded t2, vidXMatrixx t3] := rfl
    have hMR : searchRel "Matrix" (vidMatrix t1) (vidReloaded t2) :=
      Or.inl (by rw [pM, pR]; norm_num)
    have hMX : searchRel "Matrix" (vidMatrix t1) (vidXMatrixx t3) :=
      Or.inl (by rw [pM, pX]; norm_num)
    unfold enhancedSearchByTitle
    rw [hfil]
    by_cases h : t3 ≤ t2
    · have hRX : searchRel "Matrix" (vidReloaded t2) (vidXMatrixx t3) :=
        Or.inr ⟨by rw [pR, pX], h⟩
      rw [if_pos h]
      simp only [List.insertionSort, List.orderedInsert]
      rw [if_pos hRX]
      exact List.orderedInsert_of_le (searchRel "Matrix") _ hMR
    · have hXR : searchRel "Matrix" (vidXMatrixx t3) (vidReloaded t2) :=
        Or.inr ⟨by rw [pR, pX], le_of_not_le h⟩
      have hRX' : ¬ searchRel "Matrix" (vidReloaded t2) (vidXMatrixx t3) := by
        rintro (hlt | ⟨-, hle⟩)
        · rw [pR, pX] at hlt; exact lt_irrefl _ hlt
        · exact h hle
      rw [if_neg h]
      simp only [List.insertionSort, List.orderedInsert]
      rw [if_neg hRX']
      exact List.orderedInsert_of_le (searchRel "Matrix") _ hMX

/-- Witness for `enhancedSearch_ranking`: at a concrete catalog, the first
returned row's tier is at most the last returned row's tier. -/
theorem enhancedSearch_ranking_check :
    matchPriority "Matrix"
        ((enhancedSearchByTitle (matrixDB 5 2 9) "Matrix").get ⟨0, by decide⟩) ≤
      matchPriority "Matrix"
        ((enhancedSearchByTitle (matrixDB 5 2 9) "Matrix").get ⟨2, by decide⟩) :=
  (enhancedSearch_ranking (matrixDB 5 2 9) "Matrix" 5 2 9).2.2.1
    ⟨0, by decide⟩ ⟨2, by decide⟩ (by decide)

/-! ## C3 theorems -/

/-- C3 counterexample: for the duplicated list ["A", "A"] (a list of N = 2 tag
names), the video carrying tag "A" is associated with every name in the list,
yet `searchByTags` returns the empty list — `COUNT(DISTINCT name)` can never
reach the raw list length 2. -/
theorem searchByTags_duplicate_names_refuted :
    searchByTags tagDB1 ["A", "A"] = []
    ∧ (∀ n ∈ ["A", "A"], n ∈ videoTagNames tagDB1 vidA) ∧ vidA ∈ tagDB1.videos :=
  ⟨by decide, by decide, by decide⟩

/-- `COUNT(DISTINCT name)` over a video's tag names restricted to a
duplicate-free list `names` equals `names.length` exactly when every name of
`names` is among the video's tag names. -/
theorem count_distinct_eq_iff (A names : List String) (hnd : names.Nodup) :
    ((A.filter (fun n => names.contains n)).dedup.length = names.length) ↔
      ∀ n ∈ names, n ∈ A := by
  have hsub : (A.filter (fun n => names.contains n)).dedup ⊆ names := by
    intro x hx
    rw [List.mem_dedup, List.mem_filter] at hx
    exact List.mem_of_elem_eq_true hx.2
  constructor
  · intro hlen n hn
    have hperm : List.Perm ((A.filter (fun n => names.contains n)).dedup) names :=
      ((List.nodup_dedup _).subperm hsub).perm_of_length_le (le_of_eq hlen.symm)
    have hmem : n ∈ (A.filter (fun n => names.contains n)).dedup := hperm.mem_iff.mpr hn
    rw [List.mem_dedup, List.mem_filter] at hmem
    exact hmem.1
  · intro hall
    have hsub2 : names ⊆ (A.filter (fun n => names.contains n)).dedup := by
      intro n hn
      rw [List.mem_dedup, List.mem_filter]
      exact ⟨hall n hn, List.elem_eq_true_of_mem hn⟩
    exact (((List.nodup_dedup _).subperm hsub).antisymm (hnd.subperm hsub2)).length_eq

/-- C3 (amended): for every non-empty duplicate-free list of tag names,
`searchByTags` returns exactly the videos carrying all the named tags (proper
subsets excluded, supersets included), ordered by creation time descending,
and the empty list of names yields the empty result, not the full listing.
(With duplicate names in the list the distinct-count can never reach the raw
list length and the result is empty.) -/
theorem searchByTags_and_semantics (db : DB) (names : List String)
    (hnd : names.Nodup) (hne : names ≠ []) :
    (∀ v, v ∈ searchByTags db names ↔
      (v ∈ db.videos ∧ ∀ n ∈ names, n ∈ videoTagNames db v))
    ∧ List.Sorted createdDesc (searchByTags db names)
    ∧ searchByTags db [] = [] := by
  have hfalse : names.isEmpty = false := by
    cases names with
    | nil => exact absurd rfl hne
    | cons a l => rfl
  have hopen : searchByTags db names =
      List.insertionSort createdDesc
        (db.videos.filter (fun v =>
          (((videoTagNames db v).filter (fun n => names.contains n)).dedup).length =
            names.length)) := by
    unfold searchByTags
    rw [hfalse]
    simp
  refine ⟨?_, ?_, rfl⟩
  · intro v
    rw [hopen, (List.perm_insertionSort createdDesc _).mem_iff, List.mem_filter]
    rw [decide_eq_true_eq]
    exact and_congr_right (fun _ => count_distinct_eq_iff (videoTagNames db v) names hnd)
  · rw [hopen]
    exact List.sorted_insertionSort _ _

/-- Witness for `searchByTags_and_semantics` at a concrete catalog and the
singleton name list ["A"]. -/
theorem searchByTags_and_semantics_check :
    (vidA ∈ searchByTags tagDB1 ["A"] ↔
      (vidA ∈ tagDB1.videos ∧ ∀ n ∈ ["A"], n ∈ videoTagNames tagDB1 vidA))
    ∧ searchByTags tagDB1 [] = [] :=
  ⟨(searchByTags_and_semantics tagDB1 ["A"] (by decide) (by decide)).1 vidA,
   (searchByTags_and_semantics tagDB1 ["A"] (by decide) (by decide)).2.2⟩

/-! ## C5 / C6 theorems -/

/-- C5 counterexample: with a tag named "Movie" stored, `createTag "MOVIE"` is
NOT rejected — the `tags.name` UNIQUE constraint uses the default BINARY
collation, so the case-insensitively-duplicate name inserts a second row and
returns a new id, contradicting the claim's case-insensitive rejection. -/
theorem createTag_case_insensitive_refuted :
    createTag [⟨1, "Movie", "#007bff"⟩] "MOVIE" "#ff0000" =
      .ok (2, [⟨1, "Movie", "#007bff"⟩, ⟨2, "MOVIE", "#ff0000"⟩]) := by
  rfl

/-- C5 (amended): `createTag` fails with the duplicate-name error and inserts
no row if and only if a tag with the byte-identical (case-SENSITIVE) name
already exists; otherwise it succeeds, appending one row and returning the
fresh id. -/
theorem createTag_exact_duplicate (tags : List TagRec) (name color : String) :
    ((∃ t ∈ tags, t.name = name) →
      createTag tags name color = .error ("Tag " ++ name ++ " already exists"))
    ∧ ((∀ t ∈ tags, t.name ≠ name) →
      createTag tags name color =
        .ok (nextTagId tags, tags ++ [⟨nextTagId tags, name, color⟩])) := by
  constructor
  · rintro ⟨t, ht, hname⟩
    have hany : tags.any (fun t => t.name == name) = true :=
      List.any_eq_true.mpr ⟨t, ht, by simp [hname]⟩
    simp [createTag, hany]
  · intro h
    have hany : tags.any (fun t => t.name == name) = false := by
      rw [Bool.eq_false_iff]
      intro hc
      obtain ⟨t, ht, hname⟩ := List.any_eq_true.mp hc
      exact h t ht (by simpa using hname)
    simp [createTag, hany]

/-- Witness for `createTag_exact_duplicate` at concrete tables. -/
theorem createTag_exact_duplicate_check :
    createTag [⟨1, "Movie", "#007bff"⟩] "Movie" "#ff0000" =
        .error "Tag Movie already exists"
    ∧ createTag [] "Movie" "#007bff" = .ok (1, [⟨1, "Movie", "#007bff"⟩]) :=
  ⟨(createTag_exact_duplicate [⟨1, "Movie", "#007bff"⟩] "Movie" "#ff0000").1
      ⟨⟨1, "Movie", "#007bff"⟩, by simp, rfl⟩,
   (createTag_exact_duplicate [] "Movie" "#007bff").2 (by simp)⟩

/-- C6 counterexample: for probed duration `d = 1` (a positive integer, so in
the claim's first branch) the validation clamp forces length 1, giving
`start + length = 11/10`, which exceeds `d - 1 = 0` — the claimed bound
`start + length ≤ d - 1` fails. -/
theorem previewWindow_d1_refuted :
    previewWindow 1 = (1/10, 1) ∧
      ¬ ((previewWindow 1).1 + (previewWindow 1).2 ≤ (1:ℚ) - 1) := by
  constructor
  · norm_num [previewWindow, previewStart, previewRaw]
  · norm_num [previewWindow, previewStart, previewRaw]

/-- C6 (amended): for every rational duration `d ≥ 2` (in particular every
integer `d ≥ 2`) the claimed window bounds hold in each duration branch:
`d ≤ 30` gives `start = min 2 (d/10)`, `length ≤ 10`, `start+length ≤ d-1`;
`30 < d ≤ 60` gives `start = 15`, `length ≤ 15`, `start+length ≤ d-5`;
`d > 60` gives `start ≥ 30`, `10 ≤ length ≤ 20`, `start+length ≤ d-5`.
(The claim fails only at `d = 1`, where the clamp overruns `d - 1`.) -/
theorem previewWindow_bounds (d : ℚ) (h2 : 2 ≤ d) :
    (d ≤ 30 → (previewWindow d).1 = min 2 (d * (1/10)) ∧ (previewWindow d).2 ≤ 10 ∧
      (previewWindow d).1 + (previewWindow d).2 ≤ d - 1)
    ∧ (30 < d → d ≤ 60 → (previewWindow d).1 = 15 ∧ (previewWindow d).2 ≤ 15 ∧
      (previewWindow d).1 + (previewWindow d).2 ≤ d - 5)
    ∧ (60 < d → 30 ≤ (previewWindow d).1 ∧ 10 ≤ (previewWindow d).2 ∧
      (previewWindow d).2 ≤ 20 ∧ (previewWindow d).1 + (previewWindow d).2 ≤ d - 5) := by
  refine ⟨?_, ?_, ?_⟩
  · intro h30
    have hr : previewRaw d = (min 2 (d * (1/10)), min 10 (d - min 2 (d * (1/10)) - 1)) := by
      rw [previewRaw, if_pos h30]
    have hs0 : (0:ℚ) ≤ min 2 (d * (1/10)) := le_min (by norm_num) (by nlinarith)
    have hpos : 0 < d - min 2 (d * (1/10)) - 1 := by
      rcases min_cases 2 (d * (1/10)) with ⟨he, hle⟩ | ⟨he, hle⟩ <;> rw [he] <;> nlinarith
    have hlpos : 0 < min 10 (d - min 2 (d * (1/10)) - 1) := lt_min (by norm_num) hpos
    have hsum : min 2 (d * (1/10)) + min 10 (d - min 2 (d * (1/10)) - 1) ≤ d - 1 := by
      have := min_le_right 10 (d - min 2 (d * (1/10)) - 1); linarith
    have hst : previewStart d = min 2 (d * (1/10)) := by
      rw [previewStart, hr, if_neg (not_lt.mpr hs0)]
    have hw : previewWindow d =
        (min 2 (d * (1/10)), min 10 (d - min 2 (d * (1/10)) - 1)) := by
      rw [previewWindow, hst, hr]
      rw [if_neg]
      push_neg
      exact ⟨hlpos, by linarith⟩
    rw [hw]
    exact ⟨rfl, min_le_left _ _, hsum⟩
  · intro h30 h60
    have hr : previewRaw d = (15, min 15 (d - 15 - 5)) := by
      rw [previewRaw, if_neg (not_le.mpr (by linarith)), if_pos h60]
    have hlpos : (0:ℚ) < min 15 (d - 15 - 5) := lt_min (by norm_num) (by linarith)
    have hsum : (15:ℚ) + min 15 (d - 15 - 5) ≤ d - 5 := by
      have := min_le_right (15:ℚ) (d - 15 - 5); linarith
    have hst : previewStart d = 15 := by
      rw [previewStart, hr, if_neg (by norm_num)]
    have hw : previewWindow d = (15, min 15 (d - 15 - 5)) := by
      rw [previewWindow, hst, hr]
      rw [if_neg]
      push_neg
      exact ⟨hlpos, by linarith⟩
    rw [hw]
    exact ⟨rfl, min_le_left _ _, hsum⟩
  · intro h60
    have hr : previewRaw d =
        (min (max 30 (d * (2/10))) (d - min 20 (max 10 (d * (3/10))) - 5),
         min 20 (max 10 (d * (3/10)))) := by
      rw [previewRaw, if_neg (not_le.mpr (by linarith)), if_neg (not_le.mpr (by linarith))]
    have hl10 : (10:ℚ) ≤ min 20 (max 10 (d * (3/10))) :=
      le_min (by norm_num) (le_max_left _ _)
    have hl20 : min 20 (max 10 (d * (3/10))) ≤ 20 := min_le_left _ _
    have hs30 : (30:ℚ) ≤ min (max 30 (d * (2/10))) (d - min 20 (max 10 (d * (3/10))) - 5) :=
      le_min (le_max_left _ _) (by linarith)
    have hsr : min (max 30 (d * (2/10))) (d - min 20 (max 10 (d * (3/10))) - 5) ≤
        d - min 20 (max 10 (d * (3/10))) - 5 := min_le_right _ _
    have hst : previewStart d =
        min (max 30 (d * (2/10))) (d - min 20 (max 10 (d * (3/10))) - 5) := by
      rw [previewStart, hr, if_neg (not_lt.mpr (by linarith))]
    have hw : previewWindow d =
        (min (max 30 (d * (2/10))) (d - min 20 (max 10 (d * (3/10))) - 5),
         min 20 (max 10 (d * (3/10)))) := by
      rw [previewWindow, hst, hr]
      rw [if_neg]
      push_neg
      exact ⟨by linarith, by linarith⟩
    rw [hw]
    exact ⟨hs30, hl10, hl20, by linarith⟩

/-- Witness for `previewWindow_bounds` at the claim's own sample durations
20, 45 and 600. -/
theorem previewWindow_bounds_check :
    ((previewWindow 20).1 = min 2 (20 * (1/10)) ∧ (previewWindow 20).2 ≤ 10 ∧
      (previewWindow 20).1 + (previewWindow 20).2 ≤ 20 - 1)
    ∧ ((previewWindow 45).1 = 15 ∧ (previewWindow 45).2 ≤ 15 ∧
      (previewWindow 45).1 + (previewWindow 45).2 ≤ 45 - 5)
    ∧ (30 ≤ (previewWindow 600).1 ∧ 10 ≤ (previewWindow 600).2 ∧
      (previewWindow 600).2 ≤ 20 ∧ (previewWindow 600).1 + (previewWindow 600).2 ≤ 600 - 5) :=
  ⟨(previewWindow_bounds 20 (by norm_num)).1 (by norm_num),
   (previewWindow_bounds 45 (by norm_num)).2.1 (by norm_num) (by norm_num),
   (previewWindow_bounds 600 (by norm_num)).2.2 (by norm_num)⟩

/-- The generation phase never resolves the path of a file under 1KB. -/
theorem runPreviewGen_large (e : PreviewEnv) (sz : Nat)
    (h : (runPreviewGen e).result = some sz) : 1024 ≤ sz := by
  obtain ⟨ff, pe, pr, ex, gen⟩ := e
  cases ff with
  | false => simp [runPreviewGen] at h
  | true =>
    cases gen with
    | err => simp [runPreviewGen] at h
    | endNoFile => simp [runPreviewGen] at h
    | endFile s =>
      by_cases hs : s < 1024
      · simp [runPreviewGen, hs] at h
      · simp [runPreviewGen, hs] at h
        omega

/-- C7: `generatePreview` never returns a path to a file smaller than 1KB:
a resolved path always refers to a file of at least 1024 bytes; an existing
preview of at most 1KB found at positive duration is discarded and the call
falls through to regeneration (an extraction run is started); and a freshly
generated file under 1KB is removed and `null` resolved. -/
theorem generatePreview_no_small_file (e : PreviewEnv) :
    (∀ sz, (generatePreview e).result = some sz → 1024 ≤ sz)
    ∧ (∀ sz, getVideoDuration e ≠ 0 → e.existing = some sz → sz < 1024 →
        generatePreview e = runPreviewGen e ∧ (generatePreview e).attempted = true)
    ∧ (∀ sz, e.ffmpeg = true → e.gen = .endFile sz → sz < 1024 →
        runPreviewGen e = ⟨none, none, true⟩) := by
  refine ⟨?_, ?_, ?_⟩
  · intro sz h
    unfold generatePreview at h
    split at h
    · simp at h
    · split at h
      · split at h
        · simp at h
          omega
        · exact runPreviewGen_large _ _ h
      · exact runPreviewGen_large _ _ h
  · intro sz hd hex hsz
    have hff : e.ffmpeg = true := by
      by_contra hc
      rw [Bool.not_eq_true] at hc
      exact hd (by unfold getVideoDuration; simp [hc])
    have hstep : generatePreview e = runPreviewGen e := by
      unfold generatePreview
      rw [if_neg hd, hex]
      exact if_neg (by omega)
    refine ⟨hstep, ?_⟩
    rw [hstep]
    unfold runPreviewGen
    rw [hff]
    simp only [not_true_eq_false, if_false]
    cases e.gen with
    | err => rfl
    | endNoFile => rfl
    | endFile s => by_cases hs : s < 1024 <;> simp [hs]
  · intro sz hff hgen hsz
    unfold runPreviewGen
    rw [hff, hgen]
    simp [hsz]

/-- Witness for `generatePreview_no_small_file` at concrete environments. -/
theorem generatePreview_no_small_file_check :
    (generatePreview ⟨true, false, 100, some 500, .endFile 2000⟩ =
        runPreviewGen ⟨true, false, 100, some 500, .endFile 2000⟩)
    ∧ runPreviewGen ⟨true, false, 100, some 500, .endFile 10⟩ = ⟨none, none, true⟩ :=
  ⟨((generatePreview_no_small_file ⟨true, false, 100, some 500, .endFile 2000⟩).2.1
      500 (by decide) rfl (by decide)).1,
   (generatePreview_no_small_file ⟨true, false, 100, some 500, .endFile 10⟩).2.2
      10 rfl rfl (by decide)⟩

/-- C10: whenever `getVideoDuration` reports 0 — which includes tool
unavailability and every probe error — `generatePreview` resolves `null`
immediately, starting no extraction and leaving the filesystem untouched,
while `generateThumbnail` on the same file still resolves an artifact
(the placeholder when the tool is absent). -/
theorem duration_zero_no_preview :
    (∀ e : PreviewEnv, e.ffmpeg = false → getVideoDuration e = 0)
    ∧ (∀ e : PreviewEnv, e.probeErr = true → getVideoDuration e = 0)
    ∧ (∀ e : PreviewEnv, getVideoDuration e = 0 →
        generatePreview e = ⟨none, e.existing, false⟩)
    ∧ (∀ te : ThumbEnv, (generateThumbnail te).isSome = true)
    ∧ (∀ te : ThumbEnv, te.existing = false → te.ffmpeg = false →
        generateThumbnail te = some .placeholder) := by
  refine ⟨?_, ?_, ?_, ?_, ?_⟩
  · intro e h
    unfold getVideoDuration
    simp [h]
  · intro e h
    unfold getVideoDuration
    simp [h]
  · intro e h
    unfold generatePreview
    rw [if_pos h]
  · intro te
    unfold generateThumbnail
    by_cases he : te.existing
    · simp [he]
    · by_cases hf : te.ffmpeg
      · simp only [he, if_false, hf]
        cases te.extract <;> simp
      · simp [he, hf]
  · intro te he hf
    unfold generateThumbnail
    simp [he, hf]

/-- Witness for `duration_zero_no_preview` at a concrete environment with
the tool absent. -/
theorem duration_zero_no_preview_check :
    getVideoDuration ⟨false, false, 44, some 9999, .endFile 5000⟩ = 0
    ∧ generatePreview ⟨false, false, 44, some 9999, .endFile 5000⟩ =
        ⟨none, some 9999, false⟩
    ∧ generateThumbnail ⟨false, false, .ok⟩ = some .placeholder :=
  ⟨duration_zero_no_preview.1 ⟨false, false, 44, some 9999, .endFile 5000⟩ rfl,
   duration_zero_no_preview.2.2.1 ⟨false, false, 44, some 9999, .endFile 5000⟩
     (duration_zero_no_preview.1 ⟨false, false, 44, some 9999, .endFile 5000⟩ rfl),
   duration_zero_no_preview.2.2.2.2 ⟨false, false, .ok⟩ rfl rfl⟩

/-! ## C9 theorems -/

/-- Splitting after appending a comma-free chunk and a comma peels off the
chunk. -/
theorem splitComma_append_comma (x : List Char) (hx : ',' ∉ x) (r : List Char) :
    splitComma (x ++ ',' :: r) = x :: splitComma r := by
  induction x with
  | nil => simp [splitComma]
  | cons c x ih =>
    have hc : ¬ (c = ',') := fun h => hx (by simp [h])
    have hx' : ',' ∉ x := fun h => hx (List.mem_cons_of_mem _ h)
    simp only [List.cons_append, splitComma, if_neg hc]
    rw [show x.append (',' :: r) = x ++ (',' :: r) from rfl, ih hx']

/-- Splitting a comma-free chunk returns just that chunk. -/
theorem splitComma_no_comma (x : List Char) (hx : ',' ∉ x) : splitComma x = [x] := by
  induction x with
  | nil => rfl
  | cons c x ih =>
    have hc : ¬ (c = ',') := fun h => hx (by simp [h])
    have hx' : ',' ∉ x := fun h => hx (List.mem_cons_of_mem _ h)
    simp only [splitComma, if_neg hc, ih hx']

/-- Splitting undoes comma-joining for non-empty lists of comma-free chunks. -/
theorem splitComma_joinComma : ∀ xs : List (List Char), xs ≠ [] →
    (∀ x ∈ xs, ',' ∉ x) → splitComma (joinComma xs) = xs := by
  intro xs
  induction xs with
  | nil => intro h; exact absurd rfl h
  | cons x t ih =>
    intro _ hcf
    cases t with
    | nil => simpa [joinComma] using splitComma_no_comma x (hcf x (by simp))
    | cons y t2 =>
      rw [show joinComma (x :: y :: t2) = x ++ ',' :: joinComma (y :: t2) from rfl,
        splitComma_append_comma x (hcf x (by simp)),
        ih (by simp) (fun z hz => hcf z (List.mem_cons_of_mem _ hz))]

/-- A digit character is a digit. -/
theorem digitChar_isDigit {m : Nat} (h : m < 10) : (Nat.digitChar m).isDigit = true := by
  interval_cases m <;> decide

/-- A digit character decodes back to its value. -/
theorem digitChar_val {m : Nat} (h : m < 10) : (Nat.digitChar m).toNat - 48 = m := by
  interval_cases m <;> decide

/-- Every character of a rendered natural is a digit. -/
theorem natDigits_digits : ∀ f n c, c ∈ natDigits f n → c.isDigit = true := by
  intro f
  induction f with
  | zero => intro n c hc; simp [natDigits] at hc
  | succ f ih =>
    intro n c hc
    by_cases h10 : n < 10
    · rw [natDigits, if_pos h10] at hc
      simp at hc
      rw [hc]; exact digitChar_isDigit h10
    · rw [natDigits, if_neg h10, List.mem_append] at hc
      rcases hc with hc | hc
      · exact ih _ _ hc
      · simp at hc
        rw [hc]; exact digitChar_isDigit (Nat.mod_lt _ (by norm_num))

/-- `parseInt` consumes an all-digit chunk before moving on. -/
theorem parseDigits_append (a b : List Char) (acc : Nat)
    (ha : ∀ c ∈ a, c.isDigit = true) :
    parseDigits (a ++ b) acc = parseDigits b (parseDigits a acc) := by
  induction a generalizing acc with
  | nil => rfl
  | cons c a ih =>
    simp only [List.cons_append, parseDigits, if_pos (ha c (by simp))]
    exact ih _ (fun d hd => ha d (by simp [hd]))

/-- Parsing a rendered natural recovers it (with the accumulator shifted). -/
theorem parseDigits_natDigits : ∀ f n acc, n < f →
    parseDigits (natDigits f n) acc = acc * 10 ^ (natDigits f n).length + n := by
  intro f
  induction f with
  | zero => intro n acc h; omega
  | succ f ih =>
    intro n acc h
    by_cases h10 : n < 10
    · rw [natDigits, if_pos h10]
      simp only [parseDigits, if_pos (digitChar_isDigit h10)]
      rw [digitChar_val h10]
      simp
    · have hdiv : n / 10 < f := by omega
      rw [natDigits, if_neg h10]
      rw [parseDigits_append _ _ _ (fun c hc => natDigits_digits f (n / 10) c hc)]
      rw [ih (n / 10) acc hdiv]
      have hm : n % 10 < 10 := Nat.mod_lt _ (by norm_num)
      simp only [parseDigits, if_pos (digitChar_isDigit hm)]
      rw [digitChar_val hm]
      rw [List.length_append, List.length_singleton, pow_succ]
      have h1 : (acc * 10 ^ (natDigits f (n / 10)).length + n / 10) * 10 + n % 10 =
          acc * (10 ^ (natDigits f (n / 10)).length * 10) + (n / 10 * 10 + n % 10) := by
        ring
      rw [h1]
      congr 1
      omega

/-- `parseInt` inverts the decimal rendering. -/
theorem renderNat_roundtrip (n : Nat) : parseDigits (renderNat n) 0 = n := by
  have := parseDigits_natDigits (n + 1) n 0 (Nat.lt_succ_self n)
  simpa [renderNat] using this

/-- A rendered natural is never the empty string. -/
theorem renderNat_ne_nil (n : Nat) : renderNat n ≠ [] := by
  unfold renderNat
  rw [natDigits]
  split <;> simp

/-- A rendered natural never contains a comma. -/
theorem renderNat_no_comma (n : Nat) : ',' ∉ renderNat n := by
  intro h
  have := natDigits_digits _ _ _ h
  exact absurd this (by decide)

/-- `split(',')` undoes `GROUP_CONCAT` when every value is non-empty and
comma-free. -/
theorem jsSplit_groupConcat (xs : List String) (hne : ∀ x ∈ xs, x ≠ "")
    (hcf : ∀ x ∈ xs, ',' ∉ x.data) : jsSplit (groupConcat xs) = xs := by
  cases xs with
  | nil => rfl
  | cons x t =>
    have hjoin : joinComma ((x :: t).map String.data) ≠ [] := by
      cases t with
      | nil =>
        simp only [List.map, joinComma]
        intro h
        exact hne x (by simp) (by cases x; simp_all)
      | cons y t2 =>
        simp only [List.map, joinComma]
        simp
    unfold jsSplit groupConcat
    rw [if_neg (by simpa using hjoin)]
    rw [splitComma_joinComma _ (by simp) ?hcf]
    case hcf =>
      intro l hl
      rw [List.mem_map] at hl
      obtain ⟨s, hs, rfl⟩ := hl
      exact hcf s hs
    rw [List.map_map]
    apply List.map_id''
    intro s
    rfl

/-- C9 counterexample: a single associated tag named "a,b" makes the split
name list `["a", "b"]` (length 2) while the color list has length 1 — the
three lists are no longer parallel, and "b" names no stored tag. -/
theorem videoRow_comma_desync :
    (rowOf commaDB vidC).tags = ["a", "b"]
    ∧ (rowOf commaDB vidC).tagColors = ["#ff0000"]
    ∧ (rowOf commaDB vidC).tags.length ≠ (rowOf commaDB vidC).tagColors.length :=
  ⟨by decide, by decide, by decide⟩

/-- C9 (amended): provided every associated tag's name and color is non-empty
and comma-free, the aggregated video object carries `tags`, `tag_colors` and
`tag_ids` as the three parallel projections of the same join row list — equal
lengths, i-th entries describing the same tag — and every object returned by
`getVideoById` or `getAllVideos` is of exactly this shape. -/
theorem videoRow_parallel_lists (db : DB) (v : Video)
    (h : ∀ r ∈ tagRowsFor db v, r.name ≠ "" ∧ ',' ∉ r.name.data ∧
      r.color ≠ "" ∧ ',' ∉ r.color.data) :
    (rowOf db v).tags = (tagRowsFor db v).map (·.name)
    ∧ (rowOf db v).tagColors = (tagRowsFor db v).map (·.color)
    ∧ (rowOf db v).tagIds = (tagRowsFor db v).map (·.id)
    ∧ (rowOf db v).tags.length = (rowOf db v).tagColors.length
    ∧ (rowOf db v).tags.length = (rowOf db v).tagIds.length
    ∧ (∀ i r, getVideoById db i = some r → r = rowOf db r.video)
    ∧ (∀ r ∈ getAllVideos db, r = rowOf db r.video) := by
  have htags : (rowOf db v).tags = (tagRowsFor db v).map (·.name) := by
    show jsSplit (groupConcat ((tagRowsFor db v).map (·.name))) = _
    apply jsSplit_groupConcat
    · intro x hx
      rw [List.mem_map] at hx
      obtain ⟨r, hr, rfl⟩ := hx
      exact (h r hr).1
    · intro x hx
      rw [List.mem_map] at hx
      obtain ⟨r, hr, rfl⟩ := hx
      exact (h r hr).2.1
  have hcolors : (rowOf db v).tagColors = (tagRowsFor db v).map (·.color) := by
    show jsSplit (groupConcat ((tagRowsFor db v).map (·.color))) = _
    apply jsSplit_groupConcat
    · intro x hx
      rw [List.mem_map] at hx
      obtain ⟨r, hr, rfl⟩ := hx
      exact (h r hr).2.2.1
    · intro x hx
      rw [List.mem_map] at hx
      obtain ⟨r, hr, rfl⟩ := hx
      exact (h r hr).2.2.2
  have hidsplit : jsSplit (groupConcat ((tagRowsFor db v).map (fun t => renderId t.id))) =
      (tagRowsFor db v).map (fun t => renderId t.id) := by
    apply jsSplit_groupConcat
    · intro x hx
      rw [List.mem_map] at hx
      obtain ⟨r, hr, rfl⟩ := hx
      intro hemp
      exact renderNat_ne_nil r.id (congrArg String.data hemp)
    · intro x hx
      rw [List.mem_map] at hx
      obtain ⟨r, hr, rfl⟩ := hx
      exact renderNat_no_comma r.id
  have hids : (rowOf db v).tagIds = (tagRowsFor db v).map (·.id) := by
    show (jsSplit (groupConcat ((tagRowsFor db v).map (fun t => renderId t.id)))).map
        jsParseInt = _
    rw [hidsplit, List.map_map]
    apply List.map_congr_left
    intro r _
    exact renderNat_roundtrip r.id
  refine ⟨htags, hcolors, hids, ?_, ?_, ?_, ?_⟩
  · rw [htags, hcolors, List.length_map, List.length_map]
  · rw [htags, hids, List.length_map, List.length_map]
  · intro i r hr
    unfold getVideoById at hr
    rw [Option.map_eq_some'] at hr
    obtain ⟨v', _, rfl⟩ := hr
    rfl
  · intro r hr
    unfold getAllVideos at hr
    rw [List.mem_map] at hr
    obtain ⟨v', _, rfl⟩ := hr
    rfl

/-- Witness for `videoRow_parallel_lists` at a concrete comma-free catalog. -/
theorem videoRow_parallel_lists_check :
    (rowOf tagDB1 vidA).tags = ["A"]
    ∧ (rowOf tagDB1 vidA).tagColors = ["#fff"]
    ∧ (rowOf tagDB1 vidA).tagIds = [1] := by
  have h := videoRow_parallel_lists tagDB1 vidA (by decide)
  exact ⟨h.1.trans (by decide), h.2.1.trans (by decide), h.2.2.1.trans (by decide)⟩

/-! ## C8 theorems -/

/-- C8 counterexample: tool available, every extraction would succeed, probed
duration unknown — but the video file is missing, so the call returns `[]`
with neither of the claim's two permitted empty-list causes holding. -/
theorem selectionThumbnails_missing_video_refuted :
    generateSelectionThumbnails selEnvMissing 6 = []
    ∧ selEnvMissing.ffmpeg = true
    ∧ (∀ t, selEnvMissing.extract t = .ok)
    ∧ selEnvMissing.videoExists = false :=
  ⟨rfl, rfl, fun _ => rfl, rfl⟩

/-- When no abort can fire at index 0, the fallback loop keeps exactly the
candidates whose file pre-exists or whose extraction succeeds. -/
theorem fallbackLoop_no_abort (env : SelEnv) : ∀ l : List Nat,
    (∀ i ∈ l, i = 0 → ¬ (env.preexisting 1 = false ∧ env.extract 1 = .thrown)) →
    fallbackLoop env l = (l.filter (selCandidateKept env)).map (· + 1) := by
  intro l
  induction l with
  | nil => intro _; rfl
  | cons i rest ih =>
    intro h
    have hrest := fun j hj => h j (List.mem_cons_of_mem _ hj)
    by_cases hpre : env.preexisting (i + 1)
    · simp [fallbackLoop, hpre, ih hrest, List.filter_cons, selCandidateKept]
    · have hpre' : env.preexisting (i + 1) = false := by
        rw [Bool.not_eq_true] at hpre; exact hpre
      cases hext : env.extract (fallbackTime i) with
      | ok =>
        simp [fallbackLoop, hpre', hext, ih hrest, List.filter_cons, selCandidateKept]
      | noFile =>
        simp [fallbackLoop, hpre', hext, ih hrest, List.filter_cons, selCandidateKept]
      | thrown =>
        have hi : i ≠ 0 := by
          intro hi0
          subst hi0
          exact h 0 (by simp) rfl ⟨hpre', hext⟩
        simp [fallbackLoop, hpre', hext, hi, ih hrest, List.filter_cons, selCandidateKept]

/-- C8 (amended): with the tool available, the video file present and the
directory writable, a call with zero/unknown probed duration produces the
candidates of the fixed timestamps 1s/3s/5s in order, capped at
`min count 3`: if the first candidate neither pre-exists nor extracts
successfully because its extraction throws, the whole fallback aborts to `[]`;
otherwise exactly the candidates that pre-exist or extract successfully are
kept (successes before and after a mid-batch failure included), so the result
is empty only when the tool is unavailable, the video file is missing, the
directory cannot be created, the first extraction throws, or no candidate
produced a file. -/
theorem selectionThumbnails_fallback_spec (env : SelEnv) (count : Nat)
    (hf : env.ffmpeg = true) (hv : env.videoExists = true) (hd : env.dirOk = true)
    (hdur : (if env.probeErr then 0 else env.probed) = 0) :
    generateSelectionThumbnails env count =
      (if env.preexisting 1 = false ∧ env.extract 1 = .thrown then []
       else ((List.range (min count 3)).filter (selCandidateKept env)).map (· + 1))
    ∧ (generateSelectionThumbnails env count).length ≤ min count 3 := by
  have hopen : generateSelectionThumbnails env count =
      fallbackLoop env (List.range (min count 3)) := by
    unfold generateSelectionThumbnails
    rw [hf, hv, hd]
    simp only [not_true_eq_false, if_false, Bool.false_eq_true]
    rw [if_pos hdur]
    unfold generateFallbackThumbnails
    rw [show min (min count 3) 3 = min count 3 from by omega]
  have hchar : generateSelectionThumbnails env count =
      (if env.preexisting 1 = false ∧ env.extract 1 = .thrown then []
       else ((List.range (min count 3)).filter (selCandidateKept env)).map (· + 1)) := by
    rw [hopen]
    by_cases habort : env.preexisting 1 = false ∧ env.extract 1 = .thrown
    · rw [if_pos habort]
      have h3 : min count 3 = 0 ∨ min count 3 = 1 ∨ min count 3 = 2 ∨ min count 3 = 3 := by
        omega
      rcases h3 with h3 | h3 | h3 | h3 <;> rw [h3]
      · rfl
      · rw [show List.range 1 = [0] from rfl]
        simp [fallbackLoop, habort.1, habort.2, fallbackTime]
      · rw [show List.range 2 = [0, 1] from rfl]
        simp [fallbackLoop, habort.1, habort.2, fallbackTime]
      · rw [show List.range 3 = [0, 1, 2] from rfl]
        simp [fallbackLoop, habort.1, habort.2, fallbackTime]
    · rw [if_neg habort]
      apply fallbackLoop_no_abort
      intro i _ _
      exact habort
  refine ⟨hchar, ?_⟩
  rw [hchar]
  by_cases habort : env.preexisting 1 = false ∧ env.extract 1 = .thrown
  · rw [if_pos habort]
    simp
  · rw [if_neg habort]
    rw [List.length_map]
    calc (List.filter (selCandidateKept env) (List.range (min count 3))).length
        ≤ (List.range (min count 3)).length := List.length_filter_le _ _
      _ = min count 3 := List.length_range _

/-- Witness for `selectionThumbnails_fallback_spec`: requested count 6,
unknown duration, the 3s extraction throwing — the 1s and 5s candidates are
kept and the batch is capped at 3. -/
theorem selectionThumbnails_fallback_spec_check :
    generateSelectionThumbnails selEnvFallback 6 = [1, 3]
    ∧ (generateSelectionThumbnails selEnvFallback 6).length ≤ min 6 3 := by
  have h := selectionThumbnails_fallback_spec selEnvFallback 6 rfl rfl rfl rfl
  exact ⟨h.1.trans (by decide), h.2⟩

/-! ## C4 theorem -/

/-- C4: evaluating the set-thumbnail endpoint at video "clip.mp4" with the
six selection candidates on disk and "selection_2_thumb_clip.jpg" chosen —
all selection candidates are removed (the chosen one included), but NO
committed `thumb_clip.jpg` is created: the stored thumbnail path is the
chosen candidate's own path, whose file has just been deleted.  This
contradicts the claim (and the code's own comments, which assert the cleanup
runs "after the thumb file is created"); the upload path does perform the
copy. -/
theorem setThumbnail_no_committed_copy :
    (setThumbnail ⟨clipFS, none⟩ "clip.mp4" "selection_2_thumb_clip.jpg").fs = []
    ∧ (setThumbnail ⟨clipFS, none⟩ "clip.mp4" "selection_2_thumb_clip.jpg").thumbnailPath =
        some "selection_2_thumb_clip.jpg"
    ∧ (setThumbnail ⟨clipFS, none⟩ "clip.mp4" "selection_2_thumb_clip.jpg").fs.lookup
        (getThumbnailFilename "clip.mp4") = none
    ∧ getThumbnailFilename "clip.mp4" = "thumb_clip.jpg"
    ∧ (setThumbnail ⟨clipFS, none⟩ "clip.mp4" "selection_2_thumb_clip.jpg").fs.lookup
        "selection_2_thumb_clip.jpg" = none :=
  ⟨by decide, by decide, by decide, by decide, by decide⟩

/-! ## C2 theorems -/

/-- The tag predicate in propositional form: empty tag set, or all names
carried. -/
theorem tagPred_iff (db : DB) (o : FilterOpts) (v : Video) :
    tagPred db o v = true ↔ (o.tags = [] ∨ ∀ n ∈ o.tags, n ∈ videoTagNames db v) := by
  unfold tagPred
  rw [Bool.or_eq_true, List.isEmpty_iff, List.all_eq_true]
  constructor
  · rintro (h | h)
    · exact Or.inl h
    · exact Or.inr (fun n hn => List.mem_of_elem_eq_true (h n hn))
  · rintro (h | h)
    · exact Or.inl h
    · exact Or.inr (fun n hn => List.elem_eq_true_of_mem (h n hn))

/-- The resolution predicate in propositional form: empty class set, or the
video's class among the requested ones. -/
theorem resPred_iff (o : FilterOpts) (v : Video) :
    resPred o v = true ↔ (o.resolution = [] ∨ resolutionClass v.height ∈ o.resolution) := by
  unfold resPred
  rw [Bool.or_eq_true, List.isEmpty_iff]
  constructor
  · rintro (h | h)
    · exact Or.inl h
    · exact Or.inr (List.mem_of_elem_eq_true h)
  · rintro (h | h)
    · exact Or.inl h
    · exact Or.inr (List.elem_eq_true_of_mem h)

/-- The duration predicate in propositional form: each present bound
constrains the duration. -/
theorem durPred_iff (o : FilterOpts) (v : Video) :
    durPred o v = true ↔
      (∀ m, o.durationMin = some m → m ≤ v.duration)
      ∧ (∀ m, o.durationMax = some m → v.duration ≤ m) := by
  unfold durPred
  rw [Bool.and_eq_true]
  constructor
  · rintro ⟨h1, h2⟩
    constructor
    · intro m hm; rw [hm] at h1; simpa using h1
    · intro m hm; rw [hm] at h2; simpa using h2
  · rintro ⟨h1, h2⟩
    constructor
    · cases hm : o.durationMin with
      | none => rfl
      | some m => simpa using h1 m hm
    · cases hm : o.durationMax with
      | none => rfl
      | some m => simpa using h2 m hm

/-- The date predicate in propositional form: each present bound constrains
the creation timestamp. -/
theorem datePred_iff (o : FilterOpts) (v : Video) :
    datePred o v = true ↔
      (∀ t, o.dateFrom = some t → t ≤ v.createdAt)
      ∧ (∀ t, o.dateTo = some t → v.createdAt ≤ t) := by
  unfold datePred
  rw [Bool.and_eq_true]
  constructor
  · rintro ⟨h1, h2⟩
    constructor
    · intro t ht; rw [ht] at h1; simpa using h1
    · intro t ht; rw [ht] at h2; simpa using h2
  · rintro ⟨h1, h2⟩
    constructor
    · cases ht : o.dateFrom with
      | none => rfl
      | some t => simpa using h1 t ht
    · cases ht : o.dateTo with
      | none => rfl
      | some t => simpa using h2 t ht

/-- C2: the filter's base set keeps exactly the videos satisfying the
conjunction of the four optional predicates, where each absent or empty
predicate does not narrow (an empty resolution set matches every video);
every returned video is a base video satisfying the conjunction; when every
predicate is absent the call returns the unnarrowed listing, paginated in
default creation-time-descending order; and the result is always sorted by
creation time descending. -/
theorem getFilteredVideos_and_semantics (db : DB) (o : FilterOpts) :
    (∀ v, v ∈ db.videos.filter (matchesFilter db o) ↔
      (v ∈ db.videos
        ∧ (o.tags = [] ∨ ∀ n ∈ o.tags, n ∈ videoTagNames db v)
        ∧ (o.resolution = [] ∨ resolutionClass v.height ∈ o.resolution)
        ∧ (∀ m, o.durationMin = some m → m ≤ v.duration)
        ∧ (∀ m, o.durationMax = some m → v.duration ≤ m)
        ∧ (∀ t, o.dateFrom = some t → t ≤ v.createdAt)
        ∧ (∀ t, o.dateTo = some t → v.createdAt ≤ t)))
    ∧ (∀ v ∈ getFilteredVideos db o, v ∈ db.videos ∧ matchesFilter db o v = true)
    ∧ (o.tags = [] → o.resolution = [] → o.durationMin = none → o.durationMax = none →
        o.dateFrom = none → o.dateTo = none →
        getFilteredVideos db o =
          paginate o.page o.limit (List.insertionSort createdDesc db.videos))
    ∧ List.Sorted createdDesc (getFilteredVideos db o) := by
  refine ⟨?_, ?_, ?_, ?_⟩
  · intro v
    rw [List.mem_filter]
    rw [show (matchesFilter db o v = true) ↔
        (tagPred db o v = true ∧ resPred o v = true ∧ durPred o v = true ∧
          datePred o v = true) by
      unfold matchesFilter
      rw [Bool.and_eq_true, Bool.and_eq_true, Bool.and_eq_true]
      tauto]
    rw [tagPred_iff, resPred_iff, durPred_iff, datePred_iff]
    tauto
  · intro v hv
    unfold getFilteredVideos paginate at hv
    have h1 := List.mem_of_mem_take hv
    have h2 := List.mem_of_mem_drop h1
    have h3 : v ∈ db.videos.filter (matchesFilter db o) :=
      (List.perm_insertionSort createdDesc _).mem_iff.mp h2
    rw [List.mem_filter] at h3
    exact h3
  · intro ht hr hdm hdM hdf hdt
    unfold getFilteredVideos
    congr 2
    apply List.filter_eq_self.mpr
    intro v _
    unfold matchesFilter tagPred resPred durPred datePred
    rw [ht, hr, hdm, hdM, hdf, hdt]
    rfl
  · unfold getFilteredVideos paginate
    have hsor : List.Sorted createdDesc
        (List.insertionSort createdDesc (db.videos.filter (matchesFilter db o))) :=
      List.sorted_insertionSort _ _
    exact List.Pairwise.sublist ((List.take_sublist _ _).trans (List.drop_sublist _ _)) hsor

/-- Witness for `getFilteredVideos_and_semantics`: the all-absent filter
returns the unnarrowed, paginated, creation-time-descending listing. -/
theorem getFilteredVideos_and_semantics_check :
    getFilteredVideos tagDB1 emptyFilter =
      paginate 1 100 (List.insertionSort createdDesc tagDB1.videos) :=
  (getFilteredVideos_and_semantics tagDB1 emptyFilter).2.2.1 rfl rfl rfl rfl rfl rfl

end VideoServer
